import Mathlib

/-!
# Verification of the hhs-hup permission / cache / rate-limit layer

Shallow embedding of the permission service (`src/lib/permissions-new.ts`),
the advanced permission service (`src/lib/permissions-advanced.ts`), the
in-process API cache (`src/lib/api-cache.ts`) and the fixed-window rate
limiter (`src/lib/rate-limiting.ts`), together with proofs of the
specification's testable properties about them.

Timestamps (`Date.now()` values) are modelled as `Int` milliseconds.
Database reads that can fail are modelled by explicit error flags; the
in-memory maps (`Map`) are modelled as functions into `Option`.
-/

namespace HhsHup

/-! ## Permission data model (tables read and written by `PermissionService`) -/

/-- A row of the `users` table, restricted to the columns the permission
service reads (`id`, `role`). -/
structure UserRow where
  id : String
  role : String
  deriving DecidableEq, Repr

/-- A row of the `permissions` table (`id`, `name`, `is_active`). -/
structure PermRow where
  id : String
  name : String
  is_active : Bool
  deriving DecidableEq, Repr

/-- A permission-grant context as stored on a `user_permissions` row or
passed to `hasPermission`: `none` is a null/absent context, `some none` is
a context object without a (truthy) `clubId`, `some (some c)` is a context
whose `clubId` is `c`. -/
abbrev Ctx := Option (Option String)

/-- A row of the `user_permissions` table. -/
structure UserPermRow where
  user_id : String
  permission_id : String
  granted_by : String
  expires_at : Option Int
  is_active : Bool
  context : Ctx
  deriving DecidableEq, Repr

/-- A row of the `role_permissions` table: the static role → permission
mapping the spec calls the role-based permission floor. -/
structure RolePermRow where
  role : String
  permission_name : String
  deriving DecidableEq, Repr

/-- The relational state visible to the permission service. -/
structure Db where
  users : List UserRow
  permissions : List PermRow
  user_permissions : List UserPermRow
  role_permissions : List RolePermRow
  deriving DecidableEq, Repr

/-- Supabase `.single()`: produces a row exactly when the filtered result
set has exactly one element, otherwise the destructured `data` is null. -/
def singleRow {α : Type} (rows : List α) : Option α :=
  match rows with
  | [x] => some x
  | _ => none

/-- `supabase.from('users').select('role').eq('id', userId).single()`. -/
def userRoleQuery (db : Db) (userId : String) : Option String :=
  (singleRow (db.users.filter (fun u => u.id == userId))).map (fun u => u.role)

/-- `supabase.from('permissions').select('id').eq('name', permissionName).single()`. -/
def permIdQuery (db : Db) (permissionName : String) : Option String :=
  (singleRow (db.permissions.filter (fun p => p.name == permissionName))).map (fun p => p.id)

/-- Name of the permission with the given id (join used by the
effective-permission view model). -/
def permNameById (db : Db) (pid : String) : Option String :=
  (db.permissions.find? (fun p => p.id == pid)).map (fun p => p.name)

/-- A grant row is not expired at time `now` when it has no `expires_at`
or its expiry lies strictly in the future. -/
def notYetExpired (now : Int) (r : UserPermRow) : Bool :=
  match r.expires_at with
  | none => true
  | some t => now < t

/-- Modelled from the spec: the `user_effective_permissions` database view
is not part of the repository (persisted state is delegated to the
external relational schema). The spec defines a user's effective
permission set as role-derived permissions ∪ individually granted,
non-expired, active permissions, filtered by expiry at read time. The
result lists the `permission_name` of each view row for the user. -/
def effectiveViewNames (db : Db) (now : Int) (userId : String) : List String :=
  let role := (db.users.find? (fun u => u.id == userId)).map (fun u => u.role)
  let roleDerived :=
    (db.role_permissions.filter (fun rp => some rp.role == role)).map
      (fun rp => rp.permission_name)
  let granted :=
    (db.user_permissions.filter
        (fun r => r.user_id == userId && r.is_active && notYetExpired now r)).filterMap
      (fun r => permNameById db r.permission_id)
  roleDerived ++ granted

/-- `PermissionService.hasPermission(userId, permissionName, context?)`.
`viewErr` models the read of the `user_effective_permissions` view
returning an error (`if (error) return false`). The admin short-circuit
reads only the `users` table; with a truthy `context.clubId` the code
queries the raw `user_permissions` table (selecting `context` only,
with no `is_active` or expiry filter) and accepts when some row's stored
context is absent, lacks a `clubId`, or matches the requested one. -/
def hasPermission (db : Db) (now : Int) (viewErr : Bool)
    (userId permissionName : String) (context : Ctx) : Bool :=
  if userRoleQuery db userId = some "admin" then true
  else if viewErr then false
  else
    let data := (effectiveViewNames db now userId).filter (fun n => n == permissionName)
    match context with
    | none => decide (0 < data.length)
    | some none => decide (0 < data.length)
    | some (some clubId) =>
      let pid := permIdQuery db permissionName
      let contextData := db.user_permissions.filter
        (fun r =>
          r.user_id == userId &&
            (match pid with
             | some p => r.permission_id == p
             | none => false))
      contextData.any (fun r =>
        match r.context with
        | none => true
        | some none => true
        | some (some c) => c == clubId)

/-- `PermissionService.grantPermission`. Returns `false` when the
permission-name lookup yields no single row or when the insert errors
(`insertErr`); otherwise appends a fresh `user_permissions` row. The
inserted row is active (database column default for `is_active`, per the
spec lifecycle: created on grant). -/
def grantPermission (db : Db) (insertErr : Bool)
    (userId permissionName grantedBy : String)
    (expiresAt : Option Int) (context : Ctx) : Bool × Db :=
  match permIdQuery db permissionName with
  | none => (false, db)
  | some pid =>
    if insertErr then (false, db)
    else
      (true,
        { db with
          user_permissions :=
            db.user_permissions ++
              [{ user_id := userId, permission_id := pid, granted_by := grantedBy,
                 expires_at := expiresAt, is_active := true, context := context }] })

/-- `PermissionService.revokePermission`. Returns `false` when the
permission-name lookup yields no single row or when the update errors
(`updateErr`); otherwise soft-deactivates every `user_permissions` row of
the user for that permission (`update \x7b is_active: false \x7d`). -/
def revokePermission (db : Db) (updateErr : Bool)
    (userId permissionName : String) : Bool × Db :=
  match permIdQuery db permissionName with
  | none => (false, db)
  | some pid =>
    if updateErr then (false, db)
    else
      (true,
        { db with
          user_permissions :=
            db.user_permissions.map
              (fun r =>
                if r.user_id == userId && r.permission_id == pid then
                  { r with is_active := false }
                else r) })

/-! ## Fixed-window rate limiter (`src/lib/rate-limiting.ts`) -/

/-- A per-endpoint-class rate-limit configuration: window length in
milliseconds and maximum request count per window. -/
structure RateLimitConfig where
  windowMs : Int
  maxRequests : Nat
  deriving DecidableEq, Repr

/-- An entry of the in-memory `rateLimitStore`: request counter and
window reset timestamp. -/
structure RateLimitEntry where
  count : Nat
  resetTime : Int
  deriving DecidableEq, Repr

/-- The in-memory `rateLimitStore` map, keyed by `configKey:identifier`. -/
def RateStore : Type := String → Option RateLimitEntry

/-- `rateLimitStore.set(key, entry)`. -/
def storeSet (store : RateStore) (key : String) (e : RateLimitEntry) : RateStore :=
  fun k => if k = key then some e else store k

/-- `cleanupExpiredEntries(now)`: deletes every entry, of every key, whose
window has expired (`now > entry.resetTime`). -/
def cleanupExpiredEntries (now : Int) (store : RateStore) : RateStore :=
  fun k =>
    match store k with
    | some e => if now > e.resetTime then none else some e
    | none => none

/-- Result object of the middleware returned by `createRateLimiter`. -/
structure RateLimitResult where
  allowed : Bool
  resetTime : Option Int
  remaining : Option Int
  deriving DecidableEq, Repr

/-- The static `RATE_LIMIT_CONFIGS` table. -/
def RATE_LIMIT_CONFIGS : String → Option RateLimitConfig := fun k =>
  if k = "/api/auth" then some { windowMs := 15 * 60 * 1000, maxRequests := 5 }
  else if k = "/api/files" then some { windowMs := 60 * 1000, maxRequests := 10 }
  else if k = "/api/clubs" then some { windowMs := 60 * 1000, maxRequests := 60 }
  else if k = "/api/tasks" then some { windowMs := 60 * 1000, maxRequests := 100 }
  else if k = "/api/meetings" then some { windowMs := 60 * 1000, maxRequests := 50 }
  else if k = "default" then some { windowMs := 60 * 1000, maxRequests := 30 }
  else none

/-- Configuration resolution in `createRateLimiter`:
`RATE_LIMIT_CONFIGS[configKey] || RATE_LIMIT_CONFIGS['default']`. -/
def createRateLimiterConfig (configKey : String) : RateLimitConfig :=
  (RATE_LIMIT_CONFIGS configKey).getD { windowMs := 60 * 1000, maxRequests := 30 }

/-- The store key `configKey:identifier` used by the middleware. -/
def rateKey (configKey identifier : String) : String :=
  configKey ++ ":" ++ identifier

/-- One call of the middleware returned by `createRateLimiter`: purge
expired entries, then create/reset, reject, or increment the entry for
`key`, returning the result object and the updated store. -/
def rateLimitStep (cfg : RateLimitConfig) (key : String) (now : Int)
    (store : RateStore) : RateLimitResult × RateStore :=
  let store1 := cleanupExpiredEntries now store
  match store1 key with
  | none =>
    let e : RateLimitEntry := { count := 1, resetTime := now + cfg.windowMs }
    ({ allowed := true, resetTime := some e.resetTime,
       remaining := some ((cfg.maxRequests : Int) - 1) },
      storeSet store1 key e)
  | some entry =>
    if now > entry.resetTime then
      let e : RateLimitEntry := { count := 1, resetTime := now + cfg.windowMs }
      ({ allowed := true, resetTime := some e.resetTime,
         remaining := some ((cfg.maxRequests : Int) - 1) },
        storeSet store1 key e)
    else if cfg.maxRequests ≤ entry.count then
      ({ allowed := false, resetTime := some entry.resetTime, remaining := some 0 },
        store1)
    else
      let e : RateLimitEntry := { count := entry.count + 1, resetTime := entry.resetTime }
      ({ allowed := true, resetTime := some e.resetTime,
         remaining := some ((cfg.maxRequests : Int) - (e.count : Int)) },
        storeSet store1 key e)

/-- The store after `k` successive middleware calls for `key`, the `i`-th
call happening at time `ts i`. -/
def rateRun (cfg : RateLimitConfig) (key : String) (ts : Nat → Int)
    (store0 : RateStore) : Nat → RateStore
  | 0 => store0
  | Nat.succ k => (rateLimitStep cfg key (ts k) (rateRun cfg key ts store0 k)).2

/-- The `allowed` flag of the `(k+1)`-th middleware call (index `k`). -/
def rateAllowed (cfg : RateLimitConfig) (key : String) (ts : Nat → Int)
    (store0 : RateStore) (k : Nat) : Bool :=
  (rateLimitStep cfg key (ts k) (rateRun cfg key ts store0 k)).1.allowed

/-- The full result object of the `(k+1)`-th middleware call (index `k`). -/
def rateResult (cfg : RateLimitConfig) (key : String) (ts : Nat → Int)
    (store0 : RateStore) (k : Nat) : RateLimitResult :=
  (rateLimitStep cfg key (ts k) (rateRun cfg key ts store0 k)).1

/-! ## Retry-After computation of `withRateLimit` (429 branch) -/

/-- JavaScript `a || b` on numbers: `b` when `a` is absent or `0`
(falsy), otherwise `a`. -/
def jsOrElse (a : Option Int) (b : Int) : Int :=
  match a with
  | some v => if v = 0 then b else v
  | none => b

/-- `Math.ceil(a / 1000)` on an integer numerator. -/
def mathCeilDiv1000 (a : Int) : Int :=
  -((-a).fdiv 1000)

/-- The `Retry-After` header value of the 429 branch of `withRateLimit`:
`Math.ceil((resetTime || 0 - Date.now()) / 1000)`. By JavaScript operator
precedence the expression parses as `resetTime || (0 - Date.now())`. -/
def retryAfterHeader (resetTime : Option Int) (now : Int) : Int :=
  mathCeilDiv1000 (jsOrElse resetTime (0 - now))

/-! ## In-process API response cache (`src/lib/api-cache.ts`) -/

/-- A cache entry: payload, insertion timestamp, time to live (ms). -/
structure CacheEntry (α : Type) where
  data : α
  timestamp : Int
  ttl : Int
  deriving DecidableEq

/-- A cache configuration: TTL and invalidation tags. -/
structure CacheConfig where
  ttl : Int
  tags : List String
  deriving DecidableEq, Repr

/-- The module-level `cache` and `tagMap` maps of `api-cache.ts`;
`tagMap` sends a tag to the set of cache keys registered under it
(a JavaScript `Set`, modelled as a duplicate-free list). -/
structure CacheState (α : Type) where
  cache : String → Option (CacheEntry α)
  tagMap : String → Option (List String)

/-- `Set.add`: appends the key unless already present. -/
def addKeyToTag (key : String) (keys : List String) : List String :=
  if key ∈ keys then keys else keys ++ [key]

/-- `ApiCache.set(key, data, config)`: stores the entry with the current
timestamp and registers the key under each of the config's tags. -/
def cacheSet {α : Type} (key : String) (d : α) (cfg : CacheConfig) (now : Int)
    (s : CacheState α) : CacheState α :=
  { cache := fun k => if k = key then some { data := d, timestamp := now, ttl := cfg.ttl }
             else s.cache k,
    tagMap :=
      cfg.tags.foldl
        (fun tm tag =>
          fun t => if t = tag then some (addKeyToTag key ((tm tag).getD [])) else tm t)
        s.tagMap }

/-- `ApiCache.get(key)`: returns the payload when the entry exists and is
not yet expired; when `Date.now() - entry.timestamp > entry.ttl` it
deletes the entry and returns null. -/
def cacheGet {α : Type} (key : String) (now : Int) (s : CacheState α) :
    Option α × CacheState α :=
  match s.cache key with
  | none => (none, s)
  | some e =>
    if now - e.timestamp > e.ttl then
      (none, { cache := fun k => if k = key then none else s.cache k, tagMap := s.tagMap })
    else
      (some e.data, s)

/-- `ApiCache.invalidateByTag(tag)`: deletes every key registered under
the tag from the cache (counting them), removes the tag, and strips those
keys from every other tag's set, dropping sets that become empty. -/
def invalidateByTag {α : Type} (tag : String) (s : CacheState α) :
    Nat × CacheState α :=
  match s.tagMap tag with
  | none => (0, s)
  | some keys =>
    (keys.length,
      { cache := fun k => if k ∈ keys then none else s.cache k,
        tagMap := fun t =>
          if t = tag then none
          else
            match s.tagMap t with
            | none => none
            | some ks =>
              let ks2 := ks.filter (fun k => decide (¬ k ∈ keys))
              if ks2 = [] then none else some ks2 })

/-- `invalidateByTag` applied to each tag of a list in order (the
post-mutation invalidation loop of `withCache`). -/
def invalidateTags {α : Type} (tags : List String) (s : CacheState α) : CacheState α :=
  tags.foldl (fun st tg => (invalidateByTag tg st).2) s

/-! ## `withCache` middleware -/

/-- The static `CACHE_CONFIGS` table of per-endpoint cache configurations. -/
def CACHE_CONFIGS : String → Option CacheConfig := fun e =>
  if e = "/api/notifications" then some { ttl := 30 * 1000, tags := ["notifications", "user-specific"] }
  else if e = "/api/clubs" then some { ttl := 5 * 60 * 1000, tags := ["clubs", "public-data"] }
  else if e = "/api/tasks" then some { ttl := 2 * 60 * 1000, tags := ["tasks", "user-specific"] }
  else if e = "/api/meetings" then some { ttl := 3 * 60 * 1000, tags := ["meetings", "club-specific"] }
  else if e = "/api/admin/users" then some { ttl := 10 * 60 * 1000, tags := ["users", "admin-data"] }
  else if e = "/api/files" then some { ttl := 5 * 60 * 1000, tags := ["files", "club-specific"] }
  else none

/-- The handler's response, reduced to its status and JSON body. -/
structure HandlerResp (α : Type) where
  status : Int
  body : α

/-- Observable outcome of one `withCache` invocation: the response served,
whether it came from the cache, whether the wrapped handler ran, and the
cache state afterwards. -/
structure WithCacheOutcome (α : Type) where
  respStatus : Int
  respBody : α
  fromCache : Bool
  handlerCalled : Bool
  state : CacheState α

/-- One invocation of the wrapper returned by `withCache`. `cfg` is the
merged configuration (`CACHE_CONFIGS[options.endpoint]` spread with
`options.customConfig`; with default options it is exactly the endpoint's
entry). `skipCacheOnMutation` is `options.skipCacheOnMutation`
(`none` when absent — the mutation bypass applies unless it is
`some false`); `skipCacheCond` is the value of `options.skipCache` on this
request (`false` when the option is absent). Mutations run the handler
directly and invalidate all configured tags after a 2xx response;
otherwise the cache is consulted under `cacheKey`, and on a miss a
successful GET response is stored. -/
def withCacheRun {α : Type} (cfg : CacheConfig) (skipCacheOnMutation : Option Bool)
    (skipCacheCond : Bool) (method cacheKey : String) (handler : HandlerResp α)
    (now : Int) (s : CacheState α) : WithCacheOutcome α :=
  let isMutation := method = "POST" ∨ method = "PUT" ∨ method = "PATCH" ∨ method = "DELETE"
  if (¬ skipCacheOnMutation = some false) ∧ isMutation then
    let s2 :=
      if 200 ≤ handler.status ∧ handler.status < 300 then invalidateTags cfg.tags s
      else s
    { respStatus := handler.status, respBody := handler.body,
      fromCache := false, handlerCalled := true, state := s2 }
  else if skipCacheCond then
    { respStatus := handler.status, respBody := handler.body,
      fromCache := false, handlerCalled := true, state := s }
  else
    match cacheGet cacheKey now s with
    | (some d, s1) =>
      { respStatus := 200, respBody := d, fromCache := true,
        handlerCalled := false, state := s1 }
    | (none, s1) =>
      if method = "GET" ∧ 200 ≤ handler.status ∧ handler.status < 300 then
        { respStatus := handler.status, respBody := handler.body, fromCache := false,
          handlerCalled := true, state := cacheSet cacheKey handler.body cfg now s1 }
      else
        { respStatus := handler.status, respBody := handler.body, fromCache := false,
          handlerCalled := true, state := s1 }

/-! ## Conditional permission rules (`src/lib/permissions-advanced.ts`) -/

/-- A row of the `permission_rules` table. -/
structure PermissionRule where
  id : String
  name : String
  condition : String
  action : String
  permission_name : String
  priority : Int
  deriving DecidableEq, Repr

/-- A permission-state mutation performed through the permission service
(used to trace which grant/revoke calls a routine makes). -/
inductive PermAction where
  | grantAct (userId permissionName grantedBy : String)
  | revokeAct (userId permissionName : String)
  deriving DecidableEq, Repr

/-- The body of the rule loop in
`AdvancedPermissionService.evaluatePermissionRules`: the rule-condition
evaluation is stubbed out (`const shouldApply = false`), guarding the
grant/revoke calls. -/
def applyRule (userId : String) (st : Db × List PermAction)
    (rule : PermissionRule) : Db × List PermAction :=
  let shouldApply := false
  if shouldApply then
    if rule.action = "GRANT" then
      ((grantPermission st.1 false userId rule.permission_name "system" none none).2,
        st.2 ++ [PermAction.grantAct userId rule.permission_name "system"])
    else
      ((revokePermission st.1 false userId rule.permission_name).2,
        st.2 ++ [PermAction.revokeAct userId rule.permission_name])
  else st

/-- `AdvancedPermissionService.evaluatePermissionRules(userId)`: fetches
the active rules (`rules` is the query result, `none` when null) and runs
the rule loop, returning the resulting database state and the trace of
grant/revoke calls made. -/
def evaluatePermissionRules (userId : String)
    (rules : Option (List PermissionRule)) (db : Db) : Db × List PermAction :=
  match rules with
  | none => (db, [])
  | some rs => rs.foldl (applyRule userId) (db, [])

/-! ## Concrete states used to instantiate the theorems -/

/-- A database whose only user is an admin. -/
def adminDb : Db :=
  { users := [{ id := "u-admin", role := "admin" }], permissions := [],
    user_permissions := [], role_permissions := [] }

/-- A database with one member user and one grantable permission, and no
grants yet. -/
def memberDb : Db :=
  { users := [{ id := "u-mem", role := "member" }],
    permissions := [{ id := "perm-1", name := "CREATE_CLUB", is_active := true }],
    user_permissions := [], role_permissions := [] }

/-- A database where the member's only `CREATE_CLUB` grant has been
revoked (`is_active = false`) and carries no stored context. -/
def revokedDb : Db :=
  { users := [{ id := "u1", role := "member" }],
    permissions := [{ id := "p1", name := "CREATE_CLUB", is_active := true }],
    user_permissions :=
      [{ user_id := "u1", permission_id := "p1", granted_by := "admin-0",
         expires_at := none, is_active := false, context := none }],
    role_permissions := [] }

/-- `memberDb` after granting `CREATE_CLUB` to the member with no expiry. -/
def grantedDb : Db :=
  (grantPermission memberDb false "u-mem" "CREATE_CLUB" "admin-0" none none).2

/-- `grantedDb` after revoking `CREATE_CLUB` from the member again. -/
def regrantRevokedDb : Db :=
  (revokePermission grantedDb false "u-mem" "CREATE_CLUB").2

/-- The empty cache state. -/
def emptyCache : CacheState String :=
  { cache := fun _ => none, tagMap := fun _ => none }

/-- A cache holding key `a` tagged `clubs` and key `b` tagged `other`. -/
def taggedState : CacheState String :=
  cacheSet "b" "y" { ttl := 1000, tags := ["other"] } 0
    (cacheSet "a" "x" { ttl := 1000, tags := ["clubs"] } 0 emptyCache)

/-- A cache entry written at time 0 with a TTL of 5 ms. -/
def boundaryState : CacheState String :=
  cacheSet "k" "payload" { ttl := 5, tags := [] } 0 emptyCache

/-- The window=60s / max=5 configuration of the C4 scenario. -/
def c4Cfg : RateLimitConfig := { windowMs := 60 * 1000, maxRequests := 5 }

/-! ## C1: admin role bypasses all permission checks -/

/-- C1: for every database state, time, view-read outcome, requested
permission name and context (including a club context), a user whose
`users` row carries role `admin` gets `true` from `hasPermission`; the
result does not depend on the effective-permission view, whose read
outcome `viewErr` and contents (part of `db`) are arbitrary here. -/
theorem admin_bypasses_all_checks (db : Db) (now : Int) (viewErr : Bool)
    (userId permissionName : String) (context : Ctx)
    (h : userRoleQuery db userId = some "admin") :
    hasPermission db now viewErr userId permissionName context = true := by
  simp [hasPermission, h]

/-- Witness for C1 at a concrete admin database, with a failing view read
and a club context. -/
theorem admin_bypasses_all_checks_witness :
    userRoleQuery adminDb "u-admin" = some "admin" ∧
      hasPermission adminDb 0 true "u-admin" "CREATE_CLUB" (some (some "club-1")) = true :=
  ⟨by decide,
   admin_bypasses_all_checks adminDb 0 true "u-admin" "CREATE_CLUB" (some (some "club-1"))
     (by decide)⟩

/-! ## C9: permission rule evaluation is stubbed out -/

/-- C9: for every user and every set of permission rules returned by the
store, `evaluatePermissionRules` performs no grant or revoke call (empty
action trace) and leaves the permission state unchanged, because its
rule-applicability test is the constant `false`. -/
theorem evaluatePermissionRules_no_mutation (userId : String)
    (rules : Option (List PermissionRule)) (db : Db) :
    evaluatePermissionRules userId rules db = (db, []) := by
  cases rules with
  | none => rfl
  | some rs =>
    show rs.foldl (applyRule userId) (db, []) = (db, [])
    have h : ∀ (st : Db × List PermAction), rs.foldl (applyRule userId) st = st := by
      intro st
      induction rs generalizing st with
      | nil => rfl
      | cons r rest ih =>
        have happ : applyRule userId st r = st := rfl
        rw [List.foldl_cons, happ]
        exact ih st
    exact h (db, [])

/-! ## C8: fail-closed checks, boolean-only grant/revoke failures -/

/-- C8: when the effective-permission view read errors, `hasPermission`
fails closed (returns `false`, for any non-admin user, any permission and
any context); `grantPermission` and `revokePermission` return `false`
exactly when the named permission row does not resolve or the database
write fails — the same boolean for either cause — and `true` otherwise. -/
theorem error_policy_fail_closed_and_boolean :
    (∀ (db : Db) (now : Int) (userId permissionName : String) (context : Ctx),
        ¬ userRoleQuery db userId = some "admin" →
          hasPermission db now true userId permissionName context = false) ∧
      (∀ (db : Db) (insertErr : Bool) (userId permissionName grantedBy : String)
          (expiresAt : Option Int) (context : Ctx),
          (grantPermission db insertErr userId permissionName grantedBy expiresAt context).1 =
              false ↔
            (permIdQuery db permissionName = none ∨ insertErr = true)) ∧
      (∀ (db : Db) (updateErr : Bool) (userId permissionName : String),
          (revokePermission db updateErr userId permissionName).1 = false ↔
            (permIdQuery db permissionName = none ∨ updateErr = true)) := by
  refine ⟨?_, ?_, ?_⟩
  · intro db now userId permissionName context h
    simp [hasPermission, h]
  · intro db insertErr userId permissionName grantedBy expiresAt context
    cases h : permIdQuery db permissionName with
    | none => simp [grantPermission, h]
    | some pid => cases insertErr <;> simp [grantPermission, h]
  · intro db updateErr userId permissionName
    cases h : permIdQuery db permissionName with
    | none => simp [revokePermission, h]
    | some pid => cases updateErr <;> simp [revokePermission, h]

/-- Witness for C8: a failing view read denies a member's check; a grant
whose insert fails reports `false`; revoking an unknown permission name
reports `false`. -/
theorem error_policy_fail_closed_and_boolean_witness :
    hasPermission memberDb 0 true "u-mem" "CREATE_CLUB" none = false ∧
      (grantPermission memberDb true "u-mem" "CREATE_CLUB" "g1" none none).1 = false ∧
      (revokePermission memberDb false "u-mem" "NO_SUCH_PERMISSION").1 = false :=
  ⟨error_policy_fail_closed_and_boolean.1 memberDb 0 "u-mem" "CREATE_CLUB" none (by decide),
   (error_policy_fail_closed_and_boolean.2.1 memberDb true "u-mem" "CREATE_CLUB" "g1" none
       none).2 (Or.inr rfl),
   (error_policy_fail_closed_and_boolean.2.2 memberDb false "u-mem" "NO_SUCH_PERMISSION").2
     (Or.inl (by decide))⟩

/-! ## C2: revoked grants and `hasPermission` -/

/-- C2 counterexample: in `revokedDb` the member's only `CREATE_CLUB`
grant is revoked (`is_active = false`), and `hasPermission` with no
context indeed returns `false`; but called with a context containing a
`clubId` it returns `true`, because the club-context branch queries the
raw `user_permissions` table without any `is_active` (or expiry) filter.
The claim asserts `false` for both calls, so it fails on the second. -/
theorem revoked_grant_club_context_counterexample :
    hasPermission revokedDb 100 false "u1" "CREATE_CLUB" none = false ∧
      hasPermission revokedDb 100 false "u1" "CREATE_CLUB" (some (some "club-1")) = true := by
  decide

/-- If the permission name is neither role-derived for the user nor the
name of any active, non-expired grant of the user, the effective-view
rows filtered to that name are empty. -/
theorem effectiveViewNames_filter_nil (db : Db) (now : Int)
    (userId permissionName : String)
    (hrole : ∀ rp ∈ db.role_permissions,
        some rp.role = (db.users.find? (fun u => u.id == userId)).map (fun u => u.role) →
        rp.permission_name ≠ permissionName)
    (hgrants : ∀ r ∈ db.user_permissions,
        r.user_id = userId → r.is_active = true → notYetExpired now r = true →
        permNameById db r.permission_id ≠ some permissionName) :
    (effectiveViewNames db now userId).filter (fun n => n == permissionName) = [] := by
  rw [List.filter_eq_nil_iff]
  intro n hn hbeq
  have hn2 : n = permissionName := by simpa using hbeq
  subst hn2
  simp only [effectiveViewNames, List.mem_append] at hn
  rcases hn with hn | hn
  · rcases List.mem_map.mp hn with ⟨rp, hrp, hname⟩
    rcases List.mem_filter.mp hrp with ⟨hmem, hcond⟩
    have hcond2 : some rp.role =
        (db.users.find? (fun u => u.id == userId)).map (fun u => u.role) := by
      simpa using hcond
    exact hrole rp hmem hcond2 hname
  · rcases List.mem_filterMap.mp hn with ⟨r, hr, hname⟩
    rcases List.mem_filter.mp hr with ⟨hmem, hcond⟩
    simp only [Bool.and_eq_true, beq_iff_eq] at hcond
    exact hgrants r hmem hcond.1.1 hcond.1.2 hcond.2 hname

/-- C2 (amended): for a non-admin user, when every `user_permissions` row
of the user resolving to the permission name is revoked or expired and
the name is not role-derived, `hasPermission` with no context returns
`false`; with a `clubId` context the code can still return `true` for a
revoked grant (see the counterexample), since that branch skips the
`is_active` filter. The grant/revoke scenario holds for the no-context
calls: granting `CREATE_CLUB` with no expiry makes `hasPermission` true,
revoking it makes it false. -/
theorem revoked_rows_deny_without_context (db : Db) (now : Int)
    (userId permissionName : String)
    (hadmin : ¬ userRoleQuery db userId = some "admin")
    (hrole : ∀ rp ∈ db.role_permissions,
        some rp.role = (db.users.find? (fun u => u.id == userId)).map (fun u => u.role) →
        rp.permission_name ≠ permissionName)
    (hgrants : ∀ r ∈ db.user_permissions,
        r.user_id = userId → r.is_active = true → notYetExpired now r = true →
        permNameById db r.permission_id ≠ some permissionName) :
    hasPermission db now false userId permissionName none = false ∧
      (grantPermission memberDb false "u-mem" "CREATE_CLUB" "admin-0" none none).1 = true ∧
      hasPermission grantedDb 50 false "u-mem" "CREATE_CLUB" none = true ∧
      (revokePermission grantedDb false "u-mem" "CREATE_CLUB").1 = true ∧
      hasPermission regrantRevokedDb 50 false "u-mem" "CREATE_CLUB" none = false := by
  refine ⟨?_, by decide, by decide, by decide, by decide⟩
  have hnil := effectiveViewNames_filter_nil db now userId permissionName hrole hgrants
  simp [hasPermission, hadmin, hnil]

/-- Witness for C2 (amended) at `memberDb`, which has no grant rows and
no role-derived permissions. -/
theorem revoked_rows_deny_without_context_witness :
    hasPermission memberDb 0 false "u-mem" "CREATE_CLUB" none = false :=
  (revoked_rows_deny_without_context memberDb 0 "u-mem" "CREATE_CLUB" (by decide) (by decide)
      (by decide)).1

/-! ## C5: cache `get` after `set` with a TTL -/

/-- C5 counterexample: `boundaryState` holds an entry written at time 0
with `ttl = 5`; at time 5 — exactly `T` elapsed, where the claim says the
entry is evicted and `null` is returned — `ApiCache.get` still returns
the payload and leaves the entry in place, because the code evicts only
when `now - timestamp > ttl` (strictly). -/
theorem cache_get_at_exact_ttl_counterexample :
    (cacheGet "k" 5 boundaryState).1 = some "payload" ∧
      ¬ (cacheGet "k" 5 boundaryState).1 = none ∧
      ¬ (cacheGet "k" 5 boundaryState).2.cache "k" = none := by
  refine ⟨by decide, by decide, by decide⟩

/-- C5 (amended): after `set` with TTL `T` at time `tset`, `get` at time
`now` returns the payload whenever `now - tset ≤ T` (boundary included),
and once strictly more than `T` has elapsed it evicts the entry and
returns null. -/
theorem cache_get_respects_ttl (α : Type) (key : String) (d : α) (T now tset : Int)
    (tags : List String) (s : CacheState α) :
    (now - tset ≤ T →
        (cacheGet key now (cacheSet key d { ttl := T, tags := tags } tset s)).1 = some d) ∧
      (T < now - tset →
        (cacheGet key now (cacheSet key d { ttl := T, tags := tags } tset s)).1 = none ∧
          (cacheGet key now
              (cacheSet key d { ttl := T, tags := tags } tset s)).2.cache key = none) := by
  constructor
  · intro h
    simp [cacheGet, cacheSet, show ¬ now - tset > T by omega]
  · intro h
    constructor <;> simp [cacheGet, cacheSet, show now - tset > T by omega]

/-- Witness for C5 (amended): a fresh entry is served at elapsed time 3
of a 10 ms TTL and gone at elapsed time 20. -/
theorem cache_get_respects_ttl_witness :
    (cacheGet "k" 3 (cacheSet "k" "v" { ttl := 10, tags := [] } 0 emptyCache)).1 = some "v" ∧
      (cacheGet "k" 20 (cacheSet "k" "v" { ttl := 10, tags := [] } 0 emptyCache)).1 = none :=
  ⟨(cache_get_respects_ttl String "k" "v" 10 3 0 [] emptyCache).1 (by decide),
   ((cache_get_respects_ttl String "k" "v" 10 20 0 [] emptyCache).2 (by decide)).1⟩

/-! ## C6: tag-based invalidation -/

/-- C6: `invalidateByTag t` returns the number of keys registered under
`t`, removes each of them from the cache (a subsequent `get`, at any
time, returns null), and leaves the cache entry of every key not
registered under `t` unchanged. -/
theorem invalidateByTag_removes_tagged_keys (α : Type) (tag : String) (s : CacheState α)
    (keys : List String) (h : s.tagMap tag = some keys) :
    (invalidateByTag tag s).1 = keys.length ∧
      (∀ k, k ∈ keys →
        (invalidateByTag tag s).2.cache k = none ∧
          ∀ now, (cacheGet k now (invalidateByTag tag s).2).1 = none) ∧
      (∀ k, ¬ k ∈ keys → (invalidateByTag tag s).2.cache k = s.cache k) := by
  refine ⟨?_, ?_, ?_⟩
  · simp [invalidateByTag, h]
  · intro k hk
    have hcache : (invalidateByTag tag s).2.cache k = none := by
      simp [invalidateByTag, h, hk]
    exact ⟨hcache, fun now => by simp [cacheGet, hcache]⟩
  · intro k hk
    simp [invalidateByTag, h, hk]

/-- Witness for C6 on `taggedState`: invalidating `clubs` counts its one
key, clears key `a`, and leaves key `b` (tagged `other`) untouched. -/
theorem invalidateByTag_removes_tagged_keys_witness :
    (invalidateByTag "clubs" taggedState).1 = 1 ∧
      (invalidateByTag "clubs" taggedState).2.cache "a" = none ∧
      (invalidateByTag "clubs" taggedState).2.cache "b" = taggedState.cache "b" :=
  have h := invalidateByTag_removes_tagged_keys String "clubs" taggedState ["a"] (by decide)
  ⟨h.1, (h.2.1 "a" (by decide)).1, h.2.2 "b" (by decide)⟩

/-! ## C4: the Retry-After computation of the 429 branch -/

/-- C4 evaluation at the failing input: with window 60 s and max 5 for
one identity, six calls at time 1000000 starting from an empty store.
The sixth call is rejected with `resetTime = 1060000`, and the code's
`Retry-After` value — `Math.ceil((resetTime || 0 - Date.now()) / 1000)`,
which by operator precedence is `Math.ceil(resetTime / 1000)` — is 1060,
the reset time expressed as absolute epoch seconds, whereas the number of
seconds remaining until the reset time (what the claim states is sent) is
`Math.ceil((resetTime - now) / 1000) = 60`. -/
theorem retry_after_wrong_operand_order :
    rateAllowed c4Cfg (rateKey "default" "ip:1.2.3.4") (fun _ => 1000000) (fun _ => none) 5 =
        false ∧
      (rateResult c4Cfg (rateKey "default" "ip:1.2.3.4") (fun _ => 1000000)
            (fun _ => none) 5).resetTime = some 1060000 ∧
      retryAfterHeader (some 1060000) 1000000 = 1060 ∧
      mathCeilDiv1000 (1060000 - 1000000) = 60 := by
  refine ⟨by decide, by decide, by decide, by decide⟩

/-! ## C3: the fixed-window limit -/

/-- A call for a key with no store entry is allowed and writes a fresh
counter of 1 with reset time `now + windowMs`. -/
theorem rateLimitStep_fresh (cfg : RateLimitConfig) (key : String) (now : Int)
    (store : RateStore) (h : store key = none) :
    (rateLimitStep cfg key now store).1.allowed = true ∧
      (rateLimitStep cfg key now store).2 key =
        some { count := 1, resetTime := now + cfg.windowMs } := by
  have h1 : cleanupExpiredEntries now store key = none := by
    simp [cleanupExpiredEntries, h]
  constructor <;> simp [rateLimitStep, h1, storeSet]

/-- An in-window call with the counter still below the maximum is allowed
and increments the counter, keeping the reset time. -/
theorem rateLimitStep_increment (cfg : RateLimitConfig) (key : String) (now : Int)
    (store : RateStore) (c : Nat) (r : Int)
    (h : store key = some { count := c, resetTime := r }) (hr : now ≤ r)
    (hc : c < cfg.maxRequests) :
    (rateLimitStep cfg key now store).1.allowed = true ∧
      (rateLimitStep cfg key now store).2 key = some { count := c + 1, resetTime := r } := by
  have h1 : cleanupExpiredEntries now store key = some { count := c, resetTime := r } := by
    simp [cleanupExpiredEntries, h, show ¬ now > r by omega]
  constructor <;>
    simp [rateLimitStep, h1, storeSet, show ¬ now > r by omega,
      show ¬ cfg.maxRequests ≤ c by omega]

/-- An in-window call with the counter at (or beyond) the maximum is
rejected and leaves the entry unchanged. -/
theorem rateLimitStep_reject (cfg : RateLimitConfig) (key : String) (now : Int)
    (store : RateStore) (c : Nat) (r : Int)
    (h : store key = some { count := c, resetTime := r }) (hr : now ≤ r)
    (hc : cfg.maxRequests ≤ c) :
    (rateLimitStep cfg key now store).1.allowed = false ∧
      (rateLimitStep cfg key now store).2 key = some { count := c, resetTime := r } := by
  have h1 : cleanupExpiredEntries now store key = some { count := c, resetTime := r } := by
    simp [cleanupExpiredEntries, h, show ¬ now > r by omega]
  constructor <;> simp [rateLimitStep, h1, show ¬ now > r by omega, hc]

/-- After `k` calls (`1 ≤ k ≤ maxRequests`) inside one window, the store
entry for the key counts exactly `k` with reset time `ts 0 + windowMs`. -/
theorem rateRun_entry (cfg : RateLimitConfig) (key : String) (ts : Nat → Int)
    (store0 : RateStore) (h0 : store0 key = none)
    (hts : ∀ i, i ≤ cfg.maxRequests → ts i ≤ ts 0 + cfg.windowMs) :
    ∀ k, 1 ≤ k → k ≤ cfg.maxRequests →
      rateRun cfg key ts store0 k key =
        some { count := k, resetTime := ts 0 + cfg.windowMs } := by
  intro k
  induction k with
  | zero => omega
  | succ k ih =>
    intro _ hk
    match k, ih with
    | 0, _ =>
      exact (rateLimitStep_fresh cfg key (ts 0) store0 h0).2
    | Nat.succ k2, ih =>
      have hprev : rateRun cfg key ts store0 (k2 + 1) key =
          some { count := k2 + 1, resetTime := ts 0 + cfg.windowMs } :=
        ih (by omega) (by omega)
      exact (rateLimitStep_increment cfg key (ts (k2 + 1)) _ (k2 + 1) _ hprev
        (hts (k2 + 1) (by omega)) (by omega)).2

/-- C3: for every endpoint-class configuration (all of which have
`maxRequests ≥ 1`) and identifier, starting from a store with no entry
for the `class:identifier` key, calls whose timestamps stay within the
window opened by the first call are allowed for the first `maxRequests`
calls and the `(maxRequests+1)`-th is rejected; the first call resets the
counter to 1 with window reset time `ts 0 + windowMs`, and each further
in-window call increments the counter (visible in `rateRun_entry`),
comparing it to the maximum. -/
theorem rate_limiter_fixed_window (cfg : RateLimitConfig) (configKey identifier : String)
    (ts : Nat → Int) (store0 : RateStore) (hmax : 1 ≤ cfg.maxRequests)
    (h0 : store0 (rateKey configKey identifier) = none)
    (hts : ∀ i, i ≤ cfg.maxRequests → ts i ≤ ts 0 + cfg.windowMs) :
    (∀ i, i < cfg.maxRequests →
        rateAllowed cfg (rateKey configKey identifier) ts store0 i = true) ∧
      rateAllowed cfg (rateKey configKey identifier) ts store0 cfg.maxRequests = false ∧
      rateRun cfg (rateKey configKey identifier) ts store0 1 (rateKey configKey identifier) =
        some { count := 1, resetTime := ts 0 + cfg.windowMs } := by
  refine ⟨?_, ?_, ?_⟩
  · intro i hi
    match i with
    | 0 => exact (rateLimitStep_fresh cfg _ (ts 0) store0 h0).1
    | Nat.succ i2 =>
      have hprev := rateRun_entry cfg (rateKey configKey identifier) ts store0 h0 hts
        (i2 + 1) (by omega) (by omega)
      exact (rateLimitStep_increment cfg _ (ts (i2 + 1)) _ (i2 + 1) _ hprev
        (hts (i2 + 1) (by omega)) (by omega)).1
  · have hprev := rateRun_entry cfg (rateKey configKey identifier) ts store0 h0 hts
      cfg.maxRequests hmax (by omega)
    exact (rateLimitStep_reject cfg _ (ts cfg.maxRequests) _ cfg.maxRequests _ hprev
      (hts cfg.maxRequests (by omega)) (by omega)).1
  · exact rateRun_entry cfg (rateKey configKey identifier) ts store0 h0 hts 1 (by omega) hmax

/-- Witness for C3 with the `default` endpoint-class configuration
(window 60 s, max 30): the first call is allowed and the 31st call in the
same window is rejected. -/
theorem rate_limiter_fixed_window_witness :
    rateAllowed (createRateLimiterConfig "default") (rateKey "default" "u9") (fun _ => 0)
        (fun _ => none) 0 = true ∧
      rateAllowed (createRateLimiterConfig "default") (rateKey "default" "u9") (fun _ => 0)
        (fun _ => none) (createRateLimiterConfig "default").maxRequests = false :=
  have h := rate_limiter_fixed_window (createRateLimiterConfig "default") "default" "u9"
    (fun _ => 0) (fun _ => none) (by decide) rfl
    (by
      intro i hi
      show (0 : Int) ≤ 0 + (createRateLimiterConfig "default").windowMs
      decide)
  ⟨h.1 0 (by decide), h.2.1⟩

/-! ## C10: the store invariant after a middleware call -/

/-- Entries surviving `cleanupExpiredEntries now` have unexpired windows. -/
theorem cleanupExpiredEntries_bound (now : Int) (store : RateStore) (k : String)
    (e : RateLimitEntry) (h : cleanupExpiredEntries now store k = some e) :
    now ≤ e.resetTime := by
  unfold cleanupExpiredEntries at h
  cases hs : store k with
  | none => rw [hs] at h; cases h
  | some e2 =>
    simp only [hs] at h
    by_cases hgt : now > e2.resetTime
    · rw [if_pos hgt] at h
      cases h
    · rw [if_neg hgt] at h
      injection h with h2
      subst h2
      omega

/-- C10: after every completed middleware call, with `now` the timestamp
read at its start, every entry remaining in the store — for the requested
key and every other key — satisfies `now ≤ resetTime`: expired entries of
all keys are purged at the start of the call, and the entry written for
the requested key carries an in-window reset time. -/
theorem rate_store_reset_time_invariant (cfg : RateLimitConfig) (key : String)
    (now : Int) (store : RateStore) (hw : 0 ≤ cfg.windowMs) :
    ∀ (k : String) (e : RateLimitEntry),
      (rateLimitStep cfg key now store).2 k = some e → now ≤ e.resetTime := by
  intro k e h
  simp only [rateLimitStep] at h
  cases hl : cleanupExpiredEntries now store key with
  | none =>
    rw [hl] at h
    simp only [storeSet] at h
    by_cases hk : k = key
    · rw [if_pos hk] at h
      cases h
      simp only []
      omega
    · rw [if_neg hk] at h
      exact cleanupExpiredEntries_bound now store k e h
  | some entry =>
    simp only [hl] at h
    by_cases h1 : now > entry.resetTime
    · rw [if_pos h1] at h
      simp only [storeSet] at h
      by_cases hk : k = key
      · rw [if_pos hk] at h
        cases h
        simp only []
        omega
      · rw [if_neg hk] at h
        exact cleanupExpiredEntries_bound now store k e h
    · rw [if_neg h1] at h
      by_cases h2 : cfg.maxRequests ≤ entry.count
      · rw [if_pos h2] at h
        exact cleanupExpiredEntries_bound now store k e h
      · rw [if_neg h2] at h
        simp only [storeSet] at h
        by_cases hk : k = key
        · rw [if_pos hk] at h
          cases h
          simp only []
          have := cleanupExpiredEntries_bound now store key entry hl
          omega
        · rw [if_neg hk] at h
          exact cleanupExpiredEntries_bound now store k e h

/-- Witness for C10: a fresh entry written at time 5 under a 60 s window
satisfies the invariant. -/
theorem rate_store_reset_time_invariant_witness :
    (rateLimitStep { windowMs := 60000, maxRequests := 30 } "default:u1" 5
          (fun _ => none)).2 "default:u1" = some { count := 1, resetTime := 60005 } ∧
      (5 : Int) ≤ (60005 : Int) :=
  ⟨by decide,
   rate_store_reset_time_invariant { windowMs := 60000, maxRequests := 30 } "default:u1" 5
     (fun _ => none) (by decide) "default:u1" { count := 1, resetTime := 60005 } (by decide)⟩

/-! ## C7: mutations bypass cache reads and invalidate on success -/

/-- `invalidateTags` on the empty tag list is the identity. -/
theorem invalidateTags_nil (α : Type) (s : CacheState α) : invalidateTags [] s = s := rfl

/-- `invalidateTags` peels one tag at a time. -/
theorem invalidateTags_cons (α : Type) (t : String) (rest : List String)
    (s : CacheState α) :
    invalidateTags (t :: rest) s = invalidateTags rest (invalidateByTag t s).2 := rfl

/-- `invalidateByTag` never resurrects a deleted cache entry. -/
theorem invalidateByTag_cache_none (α : Type) (tg : String) (s : CacheState α)
    (k : String) (h : s.cache k = none) : (invalidateByTag tg s).2.cache k = none := by
  cases hs : s.tagMap tg with
  | none => simp [invalidateByTag, hs, h]
  | some keys => by_cases hk : k ∈ keys <;> simp [invalidateByTag, hs, hk, h]

/-- Neither does a whole invalidation loop. -/
theorem invalidateTags_cache_none (α : Type) (tags : List String) :
    ∀ (s : CacheState α) (k : String), s.cache k = none →
      (invalidateTags tags s).cache k = none := by
  induction tags with
  | nil => intro s k h; simpa [invalidateTags_nil] using h
  | cons t rest ih =>
    intro s k h
    rw [invalidateTags_cons]
    exact ih _ k (invalidateByTag_cache_none α t s k h)

/-- `invalidateByTag` never re-creates a deleted tag. -/
theorem invalidateByTag_tagMap_none (α : Type) (t2 t : String) (s : CacheState α)
    (h : s.tagMap t = none) : (invalidateByTag t2 s).2.tagMap t = none := by
  cases hs : s.tagMap t2 with
  | none => simp [invalidateByTag, hs, h]
  | some keys =>
    by_cases ht : t = t2
    · subst ht
      rw [hs] at h
      cases h
    · simp [invalidateByTag, hs, ht, h]

/-- Neither does a whole invalidation loop. -/
theorem invalidateTags_tagMap_none (α : Type) (tags : List String) :
    ∀ (s : CacheState α) (t : String), s.tagMap t = none →
      (invalidateTags tags s).tagMap t = none := by
  induction tags with
  | nil => intro s t h; simpa [invalidateTags_nil] using h
  | cons t2 rest ih =>
    intro s t h
    rw [invalidateTags_cons]
    exact ih _ t (invalidateByTag_tagMap_none α t2 t s h)

/-- After the invalidation loop, every processed tag is gone from the
tag map. -/
theorem invalidateTags_clears_tag (α : Type) (tags : List String) :
    ∀ (s : CacheState α) (t : String), t ∈ tags →
      (invalidateTags tags s).tagMap t = none := by
  induction tags with
  | nil => intro s t ht; cases ht
  | cons t2 rest ih =>
    intro s t ht
    rw [invalidateTags_cons]
    by_cases he : t = t2
    · subst he
      have h1 : (invalidateByTag t s).2.tagMap t = none := by
        cases hs : s.tagMap t with
        | none => simp [invalidateByTag, hs]
        | some keys => simp [invalidateByTag, hs]
      exact invalidateTags_tagMap_none α rest _ t h1
    · rcases List.mem_cons.mp ht with he2 | h2
      · exact absurd he2 he
      · exact ih _ t h2

/-- After the invalidation loop, every key registered under any processed
tag is gone from the cache. -/
theorem invalidateTags_clears_key (α : Type) (tags : List String) (t k : String) :
    ∀ (s : CacheState α), t ∈ tags →
      ((∃ ks, s.tagMap t = some ks ∧ k ∈ ks) ∨ s.cache k = none) →
      (invalidateTags tags s).cache k = none := by
  induction tags with
  | nil => intro s ht _; cases ht
  | cons t2 rest ih =>
    intro s ht hpre
    rw [invalidateTags_cons]
    rcases hpre with ⟨ks, hks, hk⟩ | hnone
    · cases hs : s.tagMap t2 with
      | none =>
        have hstep : (invalidateByTag t2 s).2 = s := by simp [invalidateByTag, hs]
        rw [hstep]
        have ht2 : t ∈ rest := by
          rcases List.mem_cons.mp ht with he | h2
          · subst he; rw [hs] at hks; cases hks
          · exact h2
        exact ih s ht2 (Or.inl ⟨ks, hks, hk⟩)
      | some keys =>
        by_cases hkk : k ∈ keys
        · have hdel : (invalidateByTag t2 s).2.cache k = none := by
            simp [invalidateByTag, hs, hkk]
          exact invalidateTags_cache_none α rest _ k hdel
        · have hne : ¬ t = t2 := by
            intro he
            subst he
            rw [hs] at hks
            injection hks with he2
            subst he2
            exact hkk hk
          have ht2 : t ∈ rest := by
            rcases List.mem_cons.mp ht with he | h2
            · exact absurd he hne
            · exact h2
          have hkin : k ∈ ks.filter (fun k2 => decide (¬ k2 ∈ keys)) := by
            rw [List.mem_filter]
            exact ⟨hk, by simpa using hkk⟩
          have hfil : ¬ ks.filter (fun k2 => decide (¬ k2 ∈ keys)) = [] := by
            intro he
            rw [he] at hkin
            cases hkin
          have htag : (invalidateByTag t2 s).2.tagMap t =
              some (ks.filter (fun k2 => decide (¬ k2 ∈ keys))) := by
            simp [invalidateByTag, hs, hne, hks, hfil]
            exact ⟨k, hk, hkk⟩
          exact ih _ ht2 (Or.inl ⟨_, htag, hkin⟩)
    · exact invalidateTags_cache_none α rest _ k (invalidateByTag_cache_none α t2 s k hnone)

/-- C7: a mutation request (POST, PUT, PATCH or DELETE) handled by
`withCache` with default options always runs the handler and never
serves from the cache; when the handler's status is 2xx every tag
configured for the target endpoint is invalidated (its registered keys
leave the cache and the tag leaves the tag map), and on a non-2xx status
the cache state is exactly unchanged. -/
theorem withCache_mutation_bypass (α : Type) (endpoint : String) (cfg : CacheConfig)
    (method cacheKey : String) (handler : HandlerResp α) (now : Int) (s : CacheState α)
    (_hcfg : CACHE_CONFIGS endpoint = some cfg)
    (hm : method = "POST" ∨ method = "PUT" ∨ method = "PATCH" ∨ method = "DELETE") :
    (withCacheRun cfg none false method cacheKey handler now s).handlerCalled = true ∧
      (withCacheRun cfg none false method cacheKey handler now s).fromCache = false ∧
      (withCacheRun cfg none false method cacheKey handler now s).respBody = handler.body ∧
      (200 ≤ handler.status ∧ handler.status < 300 →
        (∀ tg ks k, tg ∈ cfg.tags → s.tagMap tg = some ks → k ∈ ks →
          (withCacheRun cfg none false method cacheKey handler now s).state.cache k = none) ∧
        (∀ tg, tg ∈ cfg.tags →
          (withCacheRun cfg none false method cacheKey handler now s).state.tagMap tg =
            none)) ∧
      (¬ (200 ≤ handler.status ∧ handler.status < 300) →
        (withCacheRun cfg none false method cacheKey handler now s).state = s) := by
  have hcond : (¬ (none : Option Bool) = some false) ∧
      (method = "POST" ∨ method = "PUT" ∨ method = "PATCH" ∨ method = "DELETE") :=
    ⟨by simp, hm⟩
  have hrun : withCacheRun cfg none false method cacheKey handler now s =
      { respStatus := handler.status, respBody := handler.body, fromCache := false,
        handlerCalled := true,
        state :=
          if 200 ≤ handler.status ∧ handler.status < 300 then invalidateTags cfg.tags s
          else s } := by
    rw [withCacheRun, if_pos hcond]
  refine ⟨by rw [hrun], by rw [hrun], by rw [hrun], ?_, ?_⟩
  · intro h2
    constructor
    · intro tg ks k htg hks hk
      rw [hrun]
      simp only [if_pos h2]
      exact invalidateTags_clears_key α cfg.tags tg k s htg (Or.inl ⟨ks, hks, hk⟩)
    · intro tg htg
      rw [hrun]
      simp only [if_pos h2]
      exact invalidateTags_clears_tag α cfg.tags s tg htg
  · intro h2
    rw [hrun]
    simp only [if_neg h2]

/-- Witness for C7: a POST to `/api/clubs` with a 201 handler response on
`taggedState` runs the handler and clears the key registered under the
`clubs` tag. -/
theorem withCache_mutation_bypass_witness :
    (withCacheRun { ttl := 5 * 60 * 1000, tags := ["clubs", "public-data"] } none false
          "POST" "ck" { status := 201, body := "resp" } 0 taggedState).handlerCalled = true ∧
      (withCacheRun { ttl := 5 * 60 * 1000, tags := ["clubs", "public-data"] } none false
          "POST" "ck" { status := 201, body := "resp" } 0
          taggedState).state.cache "a" = none :=
  have h := withCache_mutation_bypass String "/api/clubs"
    { ttl := 5 * 60 * 1000, tags := ["clubs", "public-data"] } "POST" "ck"
    { status := 201, body := "resp" } 0 taggedState (by decide) (Or.inl rfl)
  ⟨h.1,
   (h.2.2.2.1 (by decide)).1 "clubs" ["a"] "a" (by decide) (by decide) (by decide)⟩

end HhsHup
